import Mathlib

/-!
Shallow embedding of `src/main.py`, a FastAPI CRUD service over an in-memory
list of user records, together with proofs about its behaviour.

The Python module keeps two globals: `fake_users_db` (a list of user dicts)
and `user_id_counter` (an int initialised to 1).  Five handlers operate on
them: list, get-one, create, update, delete.  We embed the globals as a
`Store` structure and each handler as a pure function from a store (and the
request data) to a response paired with the store left behind by the handler.
Request bodies are parsed by pydantic before a handler runs; we embed the
pydantic parse of the `UserCreate` model as `validate_UserCreate` acting on a
`RawPayload` (a JSON object whose four relevant fields may each be present or
absent).
-/

namespace FastApiUsers

/-- The stored user record.  Mirrors the dict built at `src/main.py:114-119`:
it has exactly the keys `id`, `username`, `email`, `full_name` — the password
from the request is never stored, so the record type has no password field. -/
structure User where
  id : Nat
  username : String
  email : String
  full_name : Option String
deriving DecidableEq

/-- The payload accepted by create and update after validation; mirrors the
pydantic model `UserCreate` at `src/main.py:26-31`. -/
structure UserCreate where
  username : String
  email : String
  password : String
  full_name : Option String
deriving DecidableEq

/-- The module-level state: `fake_users_db` and `user_id_counter`
(`src/main.py:34-35`). -/
structure Store where
  fake_users_db : List User
  user_id_counter : Nat
deriving DecidableEq

/-- The state at process startup: empty list, counter 1 (`src/main.py:34-35`). -/
def initStore : Store := ⟨[], 1⟩

/-- A request body for create/update, before pydantic validation: each field
of the JSON object is present (with a string value) or absent. -/
structure RawPayload where
  username : Option String
  email : Option String
  password : Option String
  full_name : Option String
deriving DecidableEq

/-- Fields of the `UserCreate` model, used to name validation failures. -/
inductive Field where
  | username
  | email
  | password
  | full_name
deriving DecidableEq

/-- Errors surfaced to the client: a pydantic validation failure (FastAPI's
422) naming the offending fields, or an `HTTPException` with a status code
and detail message. -/
inductive ApiError where
  | validation (fields : List Field)
  | http (status : Nat) (detail : String)
deriving DecidableEq

/-- `HTTPException(400, ...)` raised at `src/main.py:103-106`. -/
def usernameConflictError : ApiError := .http 400 "이미 존재하는 사용자명입니다"

/-- `HTTPException(400, ...)` raised at `src/main.py:108-111`. -/
def emailConflictError : ApiError := .http 400 "이미 존재하는 이메일입니다"

/-- `HTTPException(404, ...)` raised at `src/main.py:81,152,174`. -/
def notFoundError : ApiError := .http 404 "사용자를 찾을 수 없습니다"

/-- Modelled from the spec: the pydantic `EmailStr` validator
(`src/main.py:23,29`) is library code not present under `src/`; the spec
describes the accepted shape as local-part `@` domain, with the domain
containing at least one `.` and no embedded whitespace anywhere. -/
def emailShapeOk (s : String) : Bool :=
  let cs := s.data
  cs.countP (fun c => c = '@') = 1 &&
  !(cs.takeWhile (fun c => c ≠ '@')).isEmpty &&
  ((cs.dropWhile (fun c => c ≠ '@')).drop 1).any (fun c => c = '.') &&
  !cs.any (fun c => c = ' ')

/-- The fields pydantic reports as invalid when parsing a `UserCreate`
(`src/main.py:26-31`): `username` must be present (any string, the empty
string included, passes the bare `str` annotation), `email` must be present
and of email shape, `password` must be present; `full_name` is optional. -/
def validationErrors (p : RawPayload) : List Field :=
  (match p.username with
   | none => [Field.username]
   | some _ => []) ++
  (match p.email with
   | none => [Field.email]
   | some e => if emailShapeOk e then [] else [Field.email]) ++
  (match p.password with
   | none => [Field.password]
   | some _ => [])

/-- The pydantic parse of the `UserCreate` model (`src/main.py:26-31`): all
three required fields present and the email well-shaped yields the model
instance; otherwise a validation failure listing the offending fields. -/
def validate_UserCreate (p : RawPayload) : Except (List Field) UserCreate :=
  match p.username, p.email, p.password with
  | some u, some e, some pw =>
    if emailShapeOk e then .ok ⟨u, e, pw, p.full_name⟩
    else .error (validationErrors p)
  | _, _, _ => .error (validationErrors p)

/-- The scan of `get_user` (`src/main.py:78-80`): first record whose `id`
matches, if any. -/
def find_by_id (db : List User) (user_id : Nat) : Option User :=
  match db with
  | [] => none
  | u :: rest => if u.id = user_id then some u else find_by_id rest user_id

/-- The duplicate scan of `create_user` (`src/main.py:101-111`): for each
existing record in order, the username comparison is made before the email
comparison, and the first hit raises. -/
def findConflict (db : List User) (user : UserCreate) : Option ApiError :=
  match db with
  | [] => none
  | e :: rest =>
    if e.username = user.username then some usernameConflictError
    else if e.email = user.email then some emailConflictError
    else findConflict rest user

/-- The handler body of `create_user` (`src/main.py:98-123`), given the
already-validated payload: scan for a conflict; if none, build the new record
from the counter and the payload, append it, and increment the counter. -/
def create_user (s : Store) (user : UserCreate) : Except ApiError User × Store :=
  match findConflict s.fake_users_db user with
  | some err => (.error err, s)
  | none =>
    let new_user : User := ⟨s.user_id_counter, user.username, user.email, user.full_name⟩
    (.ok new_user, ⟨s.fake_users_db ++ [new_user], s.user_id_counter + 1⟩)

/-- The loop of `update_user` (`src/main.py:141-150`): find the first record
with matching `id`, replace it in place by a record built from `user_id` and
the payload (no uniqueness check), and return the new record; `none` when no
record matches. -/
def update_db (db : List User) (user_id : Nat) (user : UserCreate) :
    Option (User × List User) :=
  match db with
  | [] => none
  | e :: rest =>
    if e.id = user_id then
      some (⟨user_id, user.username, user.email, user.full_name⟩,
            ⟨user_id, user.username, user.email, user.full_name⟩ :: rest)
    else
      match update_db rest user_id user with
      | none => none
      | some (r, rest2) => some (r, e :: rest2)

/-- The handler body of `update_user` (`src/main.py:126-152`), given the
already-validated payload. -/
def update_user (s : Store) (user_id : Nat) (user : UserCreate) :
    Except ApiError User × Store :=
  match update_db s.fake_users_db user_id user with
  | none => (.error notFoundError, s)
  | some (r, db2) => (.ok r, ⟨db2, s.user_id_counter⟩)

/-- The loop of `delete_user` (`src/main.py:169-174`): pop the first record
with matching `id`; `none` when no record matches. -/
def delete_db (db : List User) (user_id : Nat) : Option (List User) :=
  match db with
  | [] => none
  | e :: rest =>
    if e.id = user_id then some rest
    else
      match delete_db rest user_id with
      | none => none
      | some rest2 => some (e :: rest2)

/-- The success message returned at `src/main.py:172`. -/
def deleteSuccessMessage : String := "사용자가 성공적으로 삭제되었습니다"

/-- The handler body of `delete_user` (`src/main.py:155-174`). -/
def delete_user (s : Store) (user_id : Nat) : Except ApiError String × Store :=
  match delete_db s.fake_users_db user_id with
  | none => (.error notFoundError, s)
  | some db2 => (.ok deleteSuccessMessage, ⟨db2, s.user_id_counter⟩)

/-- A client request against the service (health check aside). -/
inductive Op where
  | list
  | get (user_id : Nat)
  | create (p : RawPayload)
  | update (user_id : Nat) (p : RawPayload)
  | delete (user_id : Nat)
deriving DecidableEq

/-- A response body: a record, a list of records, a message dict, or an
error.  None of the constructors carries a password: the service never
returns one. -/
inductive Response where
  | record (u : User)
  | records (l : List User)
  | message (m : String)
  | failure (e : ApiError)
deriving DecidableEq

/-- One request processed end to end: pydantic validation of the body where
the route has one (create at `src/main.py:85`, update at `src/main.py:127`),
then the handler.  Returns the response and the store the request leaves
behind. -/
def runOp (s : Store) : Op → Response × Store
  | .list => (.records s.fake_users_db, s)
  | .get user_id =>
    match find_by_id s.fake_users_db user_id with
    | some u => (.record u, s)
    | none => (.failure notFoundError, s)
  | .create p =>
    match validate_UserCreate p with
    | .error fs => (.failure (.validation fs), s)
    | .ok user =>
      match create_user s user with
      | (.error e, s2) => (.failure e, s2)
      | (.ok u, s2) => (.record u, s2)
  | .update user_id p =>
    match validate_UserCreate p with
    | .error fs => (.failure (.validation fs), s)
    | .ok user =>
      match update_user s user_id user with
      | (.error e, s2) => (.failure e, s2)
      | (.ok u, s2) => (.record u, s2)
  | .delete user_id =>
    match delete_user s user_id with
    | (.error e, s2) => (.failure e, s2)
    | (.ok m, s2) => (.message m, s2)

/-- The store left behind by a request. -/
def applyOp (s : Store) (op : Op) : Store := (runOp s op).2

/-- The store after a sequence of requests starting from process startup. -/
def runOps (ops : List Op) : Store := ops.foldl applyOp initStore

/-- The id handed out by one request: a successful create returns the new
record, whose id was just assigned; every other request assigns none. -/
def createdIdsStep (op : Op) (r : Response) : List Nat :=
  match op, r with
  | .create _, .record u => [u.id]
  | _, _ => []

/-- The ids handed out by the successful creates in a request sequence, in
order of creation. -/
def createdIds (s : Store) : List Op → List Nat
  | [] => []
  | op :: rest => createdIdsStep op (runOp s op).1 ++ createdIds (applyOp s op) rest

/-! ### List-level lemmas about the scans -/

theorem findConflict_eq_none {db : List User} {user : UserCreate} :
    findConflict db user = none ↔
      ∀ e ∈ db, e.username ≠ user.username ∧ e.email ≠ user.email := by
  induction db with
  | nil => simp [findConflict]
  | cons e rest ih =>
    by_cases hu : e.username = user.username
    · simp [findConflict, hu, usernameConflictError]
    · by_cases he : e.email = user.email
      · simp [findConflict, hu, he, emailConflictError]
      · simp [findConflict, hu, he, ih]

theorem find_by_id_eq_none {db : List User} {user_id : Nat} :
    find_by_id db user_id = none ↔ ∀ e ∈ db, e.id ≠ user_id := by
  induction db with
  | nil => simp [find_by_id]
  | cons e rest ih =>
    by_cases h : e.id = user_id
    · simp [find_by_id, h]
    · simp [find_by_id, h, ih]

theorem find_by_id_some {db : List User} {user_id : Nat} {r : User}
    (h : find_by_id db user_id = some r) : r ∈ db ∧ r.id = user_id := by
  induction db with
  | nil => simp [find_by_id] at h
  | cons e rest ih =>
    by_cases he : e.id = user_id
    · simp [find_by_id, he] at h
      subst h
      exact ⟨List.mem_cons_self .., he⟩
    · simp [find_by_id, he] at h
      obtain ⟨hm, hid⟩ := ih h
      exact ⟨List.mem_cons_of_mem _ hm, hid⟩

theorem find_by_id_append_first {l1 : List User} {a : User} {l2 : List User}
    {user_id : Nat} (hl1 : ∀ e ∈ l1, e.id ≠ user_id) (ha : a.id = user_id) :
    find_by_id (l1 ++ a :: l2) user_id = some a := by
  induction l1 with
  | nil => simp [find_by_id, ha]
  | cons e rest ih =>
    have he : e.id ≠ user_id := hl1 e (List.mem_cons_self ..)
    simp only [List.cons_append, find_by_id, he, if_false]
    exact ih fun x hx => hl1 x (List.mem_cons_of_mem _ hx)

theorem update_db_some {db : List User} {user_id : Nat} {user : UserCreate}
    {r : User} {db2 : List User} (h : update_db db user_id user = some (r, db2)) :
    r = ⟨user_id, user.username, user.email, user.full_name⟩ ∧
      ∃ l1 e l2, db = l1 ++ e :: l2 ∧ e.id = user_id ∧
        (∀ x ∈ l1, x.id ≠ user_id) ∧ db2 = l1 ++ r :: l2 := by
  induction db generalizing db2 with
  | nil => simp [update_db] at h
  | cons e rest ih =>
    by_cases he : e.id = user_id
    · simp [update_db, he] at h
      obtain ⟨hr, hdb2⟩ := h
      refine ⟨hr.symm, [], e, rest, by simp, he, by simp, ?_⟩
      simp [← hdb2, hr]
    · simp only [update_db, he, if_false] at h
      cases hrec : update_db rest user_id user with
      | none => simp [hrec] at h
      | some p =>
        obtain ⟨r2, rest2⟩ := p
        simp [hrec] at h
        obtain ⟨hr, hdb2⟩ := h
        obtain ⟨hr2, l1, e2, l2, hrest, hid, hl1, hrest2⟩ := ih (by rw [hrec, hr])
        refine ⟨hr2, e :: l1, e2, l2, by simp [hrest], hid, ?_, by simp [← hdb2, hrest2]⟩
        intro x hx
        rcases List.mem_cons.mp hx with hx | hx
        · rw [hx]; exact he
        · exact hl1 x hx

theorem update_db_eq_none {db : List User} {user_id : Nat} {user : UserCreate} :
    update_db db user_id user = none ↔ ∀ e ∈ db, e.id ≠ user_id := by
  induction db with
  | nil => simp [update_db]
  | cons e rest ih =>
    by_cases he : e.id = user_id
    · simp [update_db, he]
    · simp only [update_db, he, if_false]
      cases hrec : update_db rest user_id user with
      | none =>
        simp only [hrec] at ih
        simp [List.forall_mem_cons, he, ← ih]
      | some p =>
        simp only [hrec] at ih
        simp [List.forall_mem_cons, he, ← ih]

theorem delete_db_some {db : List User} {user_id : Nat} {db2 : List User}
    (h : delete_db db user_id = some db2) :
    ∃ l1 e l2, db = l1 ++ e :: l2 ∧ e.id = user_id ∧
      (∀ x ∈ l1, x.id ≠ user_id) ∧ db2 = l1 ++ l2 := by
  induction db generalizing db2 with
  | nil => simp [delete_db] at h
  | cons e rest ih =>
    by_cases he : e.id = user_id
    · simp [delete_db, he] at h
      exact ⟨[], e, rest, by simp, he, by simp, by simp [h]⟩
    · simp only [delete_db, he, if_false] at h
      cases hrec : delete_db rest user_id with
      | none => simp [hrec] at h
      | some rest2 =>
        simp [hrec] at h
        obtain ⟨l1, e2, l2, hrest, hid, hl1, hrest2⟩ := ih hrec
        refine ⟨e :: l1, e2, l2, by simp [hrest], hid, ?_, by simp [← h, hrest2]⟩
        intro x hx
        rcases List.mem_cons.mp hx with hx | hx
        · rw [hx]; exact he
        · exact hl1 x hx

theorem delete_db_eq_none {db : List User} {user_id : Nat} :
    delete_db db user_id = none ↔ ∀ e ∈ db, e.id ≠ user_id := by
  induction db with
  | nil => simp [delete_db]
  | cons e rest ih =>
    by_cases he : e.id = user_id
    · simp [delete_db, he]
    · simp only [delete_db, he, if_false]
      cases hrec : delete_db rest user_id with
      | none =>
        simp only [hrec] at ih
        simp [List.forall_mem_cons, he, ← ih]
      | some rest2 =>
        simp only [hrec] at ih
        simp [List.forall_mem_cons, he, ← ih]

/-! ### Lemmas about validation -/

theorem validate_ok_fields {p : RawPayload} {user : UserCreate}
    (h : validate_UserCreate p = .ok user) :
    p.username = some user.username ∧ p.email = some user.email ∧
      p.password = some user.password ∧ p.full_name = user.full_name := by
  obtain ⟨u, e, pw, fn⟩ := p
  cases u with
  | none => simp [validate_UserCreate] at h
  | some u =>
    cases e with
    | none => simp [validate_UserCreate] at h
    | some e =>
      cases pw with
      | none => simp [validate_UserCreate] at h
      | some pw =>
        by_cases hem : emailShapeOk e
        · simp only [validate_UserCreate, hem, if_true, Except.ok.injEq] at h
          cases h
          simp
        · simp [validate_UserCreate, hem] at h

theorem validate_missing_username {p : RawPayload} (h : p.username = none) :
    validate_UserCreate p = .error (validationErrors p) ∧
      Field.username ∈ validationErrors p := by
  obtain ⟨u, e, pw, fn⟩ := p
  simp only [RawPayload.username] at h
  subst h
  constructor
  · cases e <;> cases pw <;> rfl
  · simp [validationErrors]

theorem validate_missing_password {p : RawPayload} (h : p.password = none) :
    validate_UserCreate p = .error (validationErrors p) ∧
      Field.password ∈ validationErrors p := by
  obtain ⟨u, e, pw, fn⟩ := p
  simp only [RawPayload.password] at h
  subst h
  constructor
  · cases u <;> cases e <;> rfl
  · simp [validationErrors]

/-! ### Lemmas about single requests -/

theorem runOp_create_ok {s : Store} {p : RawPayload} {u : User} {s2 : Store}
    (h : runOp s (.create p) = (.record u, s2)) :
    ∃ user, validate_UserCreate p = .ok user ∧
      findConflict s.fake_users_db user = none ∧
      u = ⟨s.user_id_counter, user.username, user.email, user.full_name⟩ ∧
      s2 = ⟨s.fake_users_db ++ [u], s.user_id_counter + 1⟩ := by
  cases hv : validate_UserCreate p with
  | error fs => simp [runOp, hv] at h
  | ok user =>
    cases hc : findConflict s.fake_users_db user with
    | some err => simp [runOp, hv, create_user, hc] at h
    | none =>
      simp only [runOp, hv, create_user, hc, Prod.mk.injEq, Response.record.injEq] at h
      obtain ⟨hu, hs2⟩ := h
      exact ⟨user, rfl, hc, hu.symm, by rw [← hs2, ← hu]⟩

theorem runOp_update_ok {s : Store} {user_id : Nat} {p : RawPayload} {u : User}
    {s2 : Store} (h : runOp s (.update user_id p) = (.record u, s2)) :
    ∃ user db2, validate_UserCreate p = .ok user ∧
      update_db s.fake_users_db user_id user = some (u, db2) ∧
      s2 = ⟨db2, s.user_id_counter⟩ := by
  cases hv : validate_UserCreate p with
  | error fs => simp [runOp, hv] at h
  | ok user =>
    cases hc : update_db s.fake_users_db user_id user with
    | none => simp [runOp, hv, update_user, hc] at h
    | some pr =>
      obtain ⟨r, db2⟩ := pr
      simp only [runOp, hv, update_user, hc, Prod.mk.injEq, Response.record.injEq] at h
      obtain ⟨hu, hs2⟩ := h
      exact ⟨user, db2, rfl, by rw [hc, hu], hs2.symm⟩

theorem counter_le_runOp (s : Store) (op : Op) :
    s.user_id_counter ≤ ((runOp s op).2).user_id_counter := by
  cases op with
  | list => simp [runOp]
  | get user_id =>
    cases h : find_by_id s.fake_users_db user_id <;> simp [runOp, h]
  | create p =>
    cases hv : validate_UserCreate p with
    | error fs => simp [runOp, hv]
    | ok user =>
      cases hc : findConflict s.fake_users_db user with
      | some err => simp [runOp, hv, create_user, hc]
      | none => simp [runOp, hv, create_user, hc]
  | update user_id p =>
    cases hv : validate_UserCreate p with
    | error fs => simp [runOp, hv]
    | ok user =>
      cases hc : update_db s.fake_users_db user_id user with
      | none => simp [runOp, hv, update_user, hc]
      | some pr => obtain ⟨r, db2⟩ := pr; simp [runOp, hv, update_user, hc]
  | delete user_id =>
    cases hc : delete_db s.fake_users_db user_id with
    | none => simp [runOp, delete_user, hc]
    | some db2 => simp [runOp, delete_user, hc]

/-! ### Store invariants -/

/-- The uniqueness invariant stated by the spec: no two stored records share
a username, and none share an email. -/
def UniqueFields (s : Store) : Prop :=
  (s.fake_users_db.map User.username).Nodup ∧ (s.fake_users_db.map User.email).Nodup

/-- Id discipline: every stored id is below the counter, and stored ids are
pairwise distinct. -/
def IdInv (s : Store) : Prop :=
  (∀ u ∈ s.fake_users_db, u.id < s.user_id_counter) ∧
    (s.fake_users_db.map User.id).Nodup

theorem update_db_map_id {db : List User} {user_id : Nat} {user : UserCreate}
    {r : User} {db2 : List User} (h : update_db db user_id user = some (r, db2)) :
    db2.map User.id = db.map User.id := by
  induction db generalizing db2 with
  | nil => simp [update_db] at h
  | cons e rest ih =>
    by_cases he : e.id = user_id
    · simp [update_db, he] at h
      obtain ⟨-, hdb2⟩ := h
      simp [← hdb2, he]
    · simp only [update_db, he, if_false] at h
      cases hrec : update_db rest user_id user with
      | none => simp [hrec] at h
      | some pr =>
        obtain ⟨r2, rest2⟩ := pr
        simp [hrec] at h
        obtain ⟨hr, hdb2⟩ := h
        simp [← hdb2, ih (by rw [hrec, hr])]

theorem delete_db_sublist {db : List User} {user_id : Nat} {db2 : List User}
    (h : delete_db db user_id = some db2) : db2.Sublist db := by
  obtain ⟨l1, e, l2, hdb, -, -, hdb2⟩ := delete_db_some h
  rw [hdb, hdb2]
  exact (List.sublist_cons_self e l2).append_left l1

theorem not_mem_map_id_of_lt {db : List User} {c : Nat}
    (hbound : ∀ u ∈ db, u.id < c) : c ∉ db.map User.id := by
  intro hc
  obtain ⟨u, hu, hid⟩ := List.mem_map.mp hc
  exact absurd hid (Nat.ne_of_lt (hbound u hu))

theorem idInv_runOp {s : Store} (h : IdInv s) (op : Op) : IdInv ((runOp s op).2) := by
  obtain ⟨hbound, hnodup⟩ := h
  cases op with
  | list => exact ⟨hbound, hnodup⟩
  | get user_id =>
    cases hf : find_by_id s.fake_users_db user_id <;>
      · simp only [runOp, hf]
        exact ⟨hbound, hnodup⟩
  | create p =>
    cases hv : validate_UserCreate p with
    | error fs =>
      simp only [runOp, hv]
      exact ⟨hbound, hnodup⟩
    | ok user =>
      cases hc : findConflict s.fake_users_db user with
      | some err =>
        simp only [runOp, hv, create_user, hc]
        exact ⟨hbound, hnodup⟩
      | none =>
        simp only [runOp, hv, create_user, hc]
        constructor
        · intro u hu
          rcases List.mem_append.mp hu with hu | hu
          · exact Nat.lt_succ_of_lt (hbound u hu)
          · rw [List.mem_singleton.mp hu]
            exact Nat.lt_succ_self _
        · simp only [List.map_append, List.map_cons, List.map_nil]
          rw [List.nodup_middle]
          simp only [List.append_nil]
          exact List.nodup_cons.mpr ⟨not_mem_map_id_of_lt hbound, hnodup⟩
  | update user_id p =>
    cases hv : validate_UserCreate p with
    | error fs =>
      simp only [runOp, hv]
      exact ⟨hbound, hnodup⟩
    | ok user =>
      cases hc : update_db s.fake_users_db user_id user with
      | none =>
        simp only [runOp, hv, update_user, hc]
        exact ⟨hbound, hnodup⟩
      | some pr =>
        obtain ⟨r, db2⟩ := pr
        simp only [runOp, hv, update_user, hc]
        have hids := update_db_map_id hc
        constructor
        · intro u hu
          have : u.id ∈ db2.map User.id := List.mem_map_of_mem _ hu
          rw [hids] at this
          obtain ⟨v, hv2, hvid⟩ := List.mem_map.mp this
          rw [← hvid]
          exact hbound v hv2
        · rw [hids]
          exact hnodup
  | delete user_id =>
    cases hc : delete_db s.fake_users_db user_id with
    | none =>
      simp only [runOp, delete_user, hc]
      exact ⟨hbound, hnodup⟩
    | some db2 =>
      simp only [runOp, delete_user, hc]
      have hsub := delete_db_sublist hc
      exact ⟨fun u hu => hbound u (hsub.mem hu), hnodup.sublist (hsub.map _)⟩

theorem idInv_foldl {ops : List Op} {s : Store} (h : IdInv s) :
    IdInv (ops.foldl applyOp s) := by
  induction ops generalizing s with
  | nil => exact h
  | cons op rest ih => exact ih (idInv_runOp h op)

/-- At every reachable store state, stored ids are pairwise distinct and lie
below the counter. -/
theorem idInv_runOps (ops : List Op) : IdInv (runOps ops) :=
  idInv_foldl ⟨by simp [initStore], by simp [initStore]⟩

/-- Whether a request is a PUT (update) request. -/
def Op.isUpdate : Op → Bool
  | .update _ _ => true
  | _ => false

theorem uniqueFields_runOp {s : Store} (h : UniqueFields s) (op : Op)
    (hop : op.isUpdate = false) : UniqueFields ((runOp s op).2) := by
  obtain ⟨hun, hem⟩ := h
  cases op with
  | list => exact ⟨hun, hem⟩
  | get user_id =>
    cases hf : find_by_id s.fake_users_db user_id <;>
      · simp only [runOp, hf]
        exact ⟨hun, hem⟩
  | create p =>
    cases hv : validate_UserCreate p with
    | error fs =>
      simp only [runOp, hv]
      exact ⟨hun, hem⟩
    | ok user =>
      cases hc : findConflict s.fake_users_db user with
      | some err =>
        simp only [runOp, hv, create_user, hc]
        exact ⟨hun, hem⟩
      | none =>
        have hclean := findConflict_eq_none.mp hc
        simp only [runOp, hv, create_user, hc]
        constructor
        · simp only [UniqueFields, List.map_append, List.map_cons, List.map_nil]
          rw [List.nodup_middle]
          simp only [List.append_nil]
          refine List.nodup_cons.mpr ⟨?_, hun⟩
          intro hmem
          obtain ⟨e, he, heq⟩ := List.mem_map.mp hmem
          exact (hclean e he).1 heq
        · simp only [List.map_append, List.map_cons, List.map_nil]
          rw [List.nodup_middle]
          simp only [List.append_nil]
          refine List.nodup_cons.mpr ⟨?_, hem⟩
          intro hmem
          obtain ⟨e, he, heq⟩ := List.mem_map.mp hmem
          exact (hclean e he).2 heq
  | update user_id p => simp [Op.isUpdate] at hop
  | delete user_id =>
    cases hc : delete_db s.fake_users_db user_id with
    | none =>
      simp only [runOp, delete_user, hc]
      exact ⟨hun, hem⟩
    | some db2 =>
      simp only [runOp, delete_user, hc]
      have hsub := delete_db_sublist hc
      exact ⟨hun.sublist (hsub.map _), hem.sublist (hsub.map _)⟩

theorem uniqueFields_foldl {ops : List Op} {s : Store} (hs : UniqueFields s)
    (h : ∀ op ∈ ops, op.isUpdate = false) :
    UniqueFields (ops.foldl applyOp s) := by
  induction ops generalizing s with
  | nil => exact hs
  | cons op rest ih =>
    exact ih (uniqueFields_runOp hs op (h op (List.mem_cons_self ..)))
      fun o ho => h o (List.mem_cons_of_mem _ ho)

/-! ### C1 -/

/-- C1, counterexample.  The claim says that at every store state reachable
by create/update/delete requests no two records share a username and no two
share an email.  It is false: `update_user` (`src/main.py:141-150`) performs
no uniqueness check, so updating record 2's username to `alice` while record
1 is named `alice` yields two records with the same username. -/
theorem C1_counterexample :
    (runOps [.create ⟨some "alice", some "a@x.com", some "p", none⟩,
             .create ⟨some "bob", some "b@x.com", some "p", none⟩,
             .update 2 ⟨some "alice", some "c@x.com", some "p", none⟩]).fake_users_db =
      [⟨1, "alice", "a@x.com", none⟩, ⟨2, "alice", "c@x.com", none⟩] ∧
    ¬ ((runOps [.create ⟨some "alice", some "a@x.com", some "p", none⟩,
                .create ⟨some "bob", some "b@x.com", some "p", none⟩,
                .update 2 ⟨some "alice", some "c@x.com", some "p", none⟩]).fake_users_db.map
        User.username).Nodup := by
  decide

/-- C1, amended.  At every store state reachable by a sequence of requests
containing no update, no two stored records share a username and no two
share an email.  (Updates can break the invariant because `update_user` at
`src/main.py:141-150` performs no uniqueness check.) -/
theorem C1_unique_fields_without_update (ops : List Op)
    (h : ∀ op ∈ ops, op.isUpdate = false) :
    ((runOps ops).fake_users_db.map User.username).Nodup ∧
      ((runOps ops).fake_users_db.map User.email).Nodup :=
  uniqueFields_foldl ⟨by simp [initStore], by simp [initStore]⟩ h

/-- C1, witness: the amended theorem applied to a concrete update-free
request sequence. -/
theorem C1_witness :
    (∀ op ∈ [Op.create ⟨some "alice", some "a@x.com", some "p", none⟩,
             Op.delete 1,
             Op.create ⟨some "bob", some "a@x.com", some "p", none⟩],
       op.isUpdate = false) ∧
    (((runOps [Op.create ⟨some "alice", some "a@x.com", some "p", none⟩,
               Op.delete 1,
               Op.create ⟨some "bob", some "a@x.com", some "p", none⟩]).fake_users_db.map
        User.username).Nodup ∧
      ((runOps [Op.create ⟨some "alice", some "a@x.com", some "p", none⟩,
                Op.delete 1,
                Op.create ⟨some "bob", some "a@x.com", some "p", none⟩]).fake_users_db.map
        User.email).Nodup) :=
  ⟨by decide, C1_unique_fields_without_update _ (by decide)⟩

/-! ### C2 -/

theorem findConflict_append {l1 : List User} {a : User} {l2 : List User}
    {user : UserCreate}
    (h : ∀ e ∈ l1, e.username ≠ user.username ∧ e.email ≠ user.email) :
    findConflict (l1 ++ a :: l2) user =
      if a.username = user.username then some usernameConflictError
      else if a.email = user.email then some emailConflictError
      else findConflict l2 user := by
  induction l1 with
  | nil => simp [findConflict]
  | cons e rest ih =>
    have he := h e (List.mem_cons_self ..)
    simp only [List.cons_append, findConflict, if_neg he.1, if_neg he.2]
    exact ih fun x hx => h x (List.mem_cons_of_mem _ hx)

/-- C2, counterexample.  The claim says that when a create payload duplicates
the username of one record and the email of a different record, the username
conflict is always the one reported, regardless of insertion order.  It is
false: the scan at `src/main.py:101-111` checks username then email for each
record in insertion order, so when the email-conflicting record was inserted
first, the email conflict is reported.  Here record 1 (`bob`,
`alice@x.com`) conflicts on email and record 2 (`alice`, `b@x.com`) on
username, and the email conflict wins. -/
theorem C2_counterexample :
    (runOps [.create ⟨some "bob", some "alice@x.com", some "p", none⟩,
             .create ⟨some "alice", some "b@x.com", some "p", none⟩]).fake_users_db =
      [⟨1, "bob", "alice@x.com", none⟩, ⟨2, "alice", "b@x.com", none⟩] ∧
    (runOp (runOps [.create ⟨some "bob", some "alice@x.com", some "p", none⟩,
                    .create ⟨some "alice", some "b@x.com", some "p", none⟩])
        (.create ⟨some "alice", some "alice@x.com", some "p", none⟩)).1
      = .failure emailConflictError := by
  decide

/-- C2, amended.  When a create payload conflicts with existing records, the
first conflicting record in insertion order decides which error is reported:
if that record matches the payload's username the username conflict is
reported (also when a later record matches the email), and if it matches
only the email the email conflict is reported (also when a later record
matches the username).  Username precedence holds only within a single
record, because the scan at `src/main.py:101-111` compares username before
email per record. -/
theorem C2_first_conflicting_record_decides (s : Store) (user : UserCreate)
    (l1 : List User) (a : User) (l2 : List User)
    (hdb : s.fake_users_db = l1 ++ a :: l2)
    (hclean : ∀ e ∈ l1, e.username ≠ user.username ∧ e.email ≠ user.email) :
    (a.username = user.username →
      create_user s user = (.error usernameConflictError, s)) ∧
    (a.username ≠ user.username → a.email = user.email →
      create_user s user = (.error emailConflictError, s)) := by
  constructor
  · intro hu
    simp only [create_user, hdb, findConflict_append hclean, if_pos hu]
  · intro hu he
    simp only [create_user, hdb, findConflict_append hclean, if_neg hu, if_pos he]

/-- C2, witness: in a store holding `bob` then `alice`, creating a payload
whose username collides with the `alice` record (and whose email collides
with nothing) reports the username conflict. -/
theorem C2_witness :
    create_user ⟨[⟨1, "bob", "b@x.com", none⟩, ⟨2, "alice", "a@x.com", none⟩], 3⟩
        ⟨"alice", "x@y.com", "p", none⟩ =
      (.error usernameConflictError,
        ⟨[⟨1, "bob", "b@x.com", none⟩, ⟨2, "alice", "a@x.com", none⟩], 3⟩) :=
  (C2_first_conflicting_record_decides
      ⟨[⟨1, "bob", "b@x.com", none⟩, ⟨2, "alice", "a@x.com", none⟩], 3⟩
      ⟨"alice", "x@y.com", "p", none⟩
      [⟨1, "bob", "b@x.com", none⟩] ⟨2, "alice", "a@x.com", none⟩ []
      rfl (by decide)).1 rfl

/-! ### C3 -/

/-- C3.  Every error outcome — validation failure, not-found on
get/update/delete, or username/email conflict on create — leaves the store
(record list and id counter) exactly as it was: the store is mutated only
on the success path.  (In the source, every `raise HTTPException` happens
before any mutation of `fake_users_db` or `user_id_counter`, and pydantic
validation failures abort before the handler body runs.) -/
theorem C3_errors_leave_store_unchanged (s : Store) (op : Op) (e : ApiError)
    (h : (runOp s op).1 = .failure e) : (runOp s op).2 = s := by
  cases op with
  | list => simp [runOp] at h
  | get user_id =>
    cases hf : find_by_id s.fake_users_db user_id with
    | some u => simp [runOp, hf] at h
    | none => simp [runOp, hf]
  | create p =>
    cases hv : validate_UserCreate p with
    | error fs => simp [runOp, hv]
    | ok user =>
      cases hc : findConflict s.fake_users_db user with
      | some err => simp [runOp, hv, create_user, hc]
      | none => simp [runOp, hv, create_user, hc] at h
  | update user_id p =>
    cases hv : validate_UserCreate p with
    | error fs => simp [runOp, hv]
    | ok user =>
      cases hc : update_db s.fake_users_db user_id user with
      | none => simp [runOp, hv, update_user, hc]
      | some pr =>
        obtain ⟨r, db2⟩ := pr
        simp [runOp, hv, update_user, hc] at h
  | delete user_id =>
    cases hc : delete_db s.fake_users_db user_id with
    | none => simp [runOp, delete_user, hc]
    | some db2 => simp [runOp, delete_user, hc] at h

/-- C3, witness: a get on the empty store fails with not-found and leaves
the store unchanged. -/
theorem C3_witness :
    (runOp initStore (Op.get 1)).1 = .failure notFoundError ∧
      (runOp initStore (Op.get 1)).2 = initStore :=
  ⟨rfl, C3_errors_leave_store_unchanged initStore (Op.get 1) notFoundError rfl⟩

/-! ### C4 -/

theorem runOp_fst_create_record {s : Store} {p : RawPayload} {u : User}
    (h : (runOp s (.create p)).1 = .record u) :
    u.id = s.user_id_counter ∧
      ((runOp s (.create p)).2).user_id_counter = s.user_id_counter + 1 := by
  have h2 : runOp s (.create p) = (.record u, (runOp s (.create p)).2) := by
    rw [← h]
  obtain ⟨user, -, -, hu, hs2⟩ := runOp_create_ok h2
  exact ⟨by rw [hu], by rw [hs2]⟩

theorem createdIds_lb {ops : List Op} {s : Store} {x : Nat}
    (h : x ∈ createdIds s ops) : s.user_id_counter ≤ x := by
  induction ops generalizing s with
  | nil => simp [createdIds] at h
  | cons op rest ih =>
    simp only [createdIds] at h
    rcases List.mem_append.mp h with h | h
    · cases op with
      | create p =>
        cases hr : (runOp s (.create p)).1 with
        | record u =>
          simp only [createdIdsStep, hr, List.mem_singleton] at h
          rw [h, (runOp_fst_create_record hr).1]
        | records l => simp [createdIdsStep, hr] at h
        | message m => simp [createdIdsStep, hr] at h
        | failure e => simp [createdIdsStep, hr] at h
      | list => simp [createdIdsStep] at h
      | get user_id => simp [createdIdsStep] at h
      | update user_id p => simp [createdIdsStep] at h
      | delete user_id => simp [createdIdsStep] at h
    · exact le_trans (counter_le_runOp s op) (ih h)

theorem createdIds_pairwise (ops : List Op) :
    ∀ s, List.Pairwise (· < ·) (createdIds s ops) := by
  induction ops with
  | nil => intro s; simp [createdIds]
  | cons op rest ih =>
    intro s
    simp only [createdIds]
    rw [List.pairwise_append]
    refine ⟨?_, ih _, ?_⟩
    · cases op with
      | create p =>
        cases hr : (runOp s (.create p)).1 <;> simp [createdIdsStep, hr]
      | list => simp [createdIdsStep]
      | get user_id => simp [createdIdsStep]
      | update user_id p => simp [createdIdsStep]
      | delete user_id => simp [createdIdsStep]
    · intro x hx y hy
      cases op with
      | create p =>
        cases hr : (runOp s (.create p)).1 with
        | record u =>
          simp only [createdIdsStep, hr, List.mem_singleton] at hx
          obtain ⟨hid, hcnt⟩ := runOp_fst_create_record hr
          have hy2 : ((runOp s (.create p)).2).user_id_counter ≤ y := createdIds_lb hy
          rw [hx, hid]
          calc s.user_id_counter < s.user_id_counter + 1 := Nat.lt_succ_self _
            _ = ((runOp s (.create p)).2).user_id_counter := hcnt.symm
            _ ≤ y := hy2
        | records l => simp [createdIdsStep, hr] at hx
        | message m => simp [createdIdsStep, hr] at hx
        | failure e => simp [createdIdsStep, hr] at hx
      | list => simp [createdIdsStep] at hx
      | get user_id => simp [createdIdsStep] at hx
      | update user_id p => simp [createdIdsStep] at hx
      | delete user_id => simp [createdIdsStep] at hx

/-- C4.  Over any request sequence (creates interleaved with any other
requests, failures included), the ids assigned by successful creates are
strictly increasing in creation order, hence pairwise distinct; an id once
assigned is never assigned again, deletions notwithstanding, because
`user_id_counter` (`src/main.py:35,121`) only ever grows. -/
theorem C4_created_ids_strictly_increasing (ops : List Op) :
    List.Pairwise (· < ·) (createdIds initStore ops) ∧
      (createdIds initStore ops).Nodup :=
  ⟨createdIds_pairwise ops initStore,
    (createdIds_pairwise ops initStore).imp Nat.ne_of_lt⟩

/-! ### C5 -/

/-- C5.  When the store holds a record with the requested id, an update with
a valid payload succeeds and returns the replaced record with that id, with
no hypothesis whatsoever on the payload's username or email relative to the
other records: the loop at `src/main.py:141-150` checks only the id, never
uniqueness. -/
theorem C5_update_ignores_uniqueness (s : Store) (user_id : Nat) (p : RawPayload)
    (user : UserCreate) (hv : validate_UserCreate p = .ok user)
    (hmem : ∃ r ∈ s.fake_users_db, r.id = user_id) :
    ∃ db2, runOp s (.update user_id p) =
      (.record ⟨user_id, user.username, user.email, user.full_name⟩,
        ⟨db2, s.user_id_counter⟩) := by
  cases hc : update_db s.fake_users_db user_id user with
  | none =>
    obtain ⟨r, hr, hid⟩ := hmem
    exact absurd hid (update_db_eq_none.mp hc r hr)
  | some pr =>
    obtain ⟨r, db2⟩ := pr
    obtain ⟨hr, -⟩ := update_db_some hc
    exact ⟨db2, by simp [runOp, hv, update_user, hc, hr]⟩

/-- C5, witness: record 2 (`bob`) is updated to carry the username and the
email of record 1 (`alice`), and the update succeeds. -/
theorem C5_witness :
    validate_UserCreate ⟨some "alice", some "a@x.com", some "p", none⟩ =
        .ok ⟨"alice", "a@x.com", "p", none⟩ ∧
    (∃ r ∈ ([⟨1, "alice", "a@x.com", none⟩,
             ⟨2, "bob", "b@x.com", none⟩] : List User), r.id = 2) ∧
    ∃ db2, runOp ⟨[⟨1, "alice", "a@x.com", none⟩, ⟨2, "bob", "b@x.com", none⟩], 3⟩
        (.update 2 ⟨some "alice", some "a@x.com", some "p", none⟩) =
      (.record ⟨2, "alice", "a@x.com", none⟩, ⟨db2, 3⟩) :=
  ⟨rfl, by decide,
    C5_update_ignores_uniqueness
      ⟨[⟨1, "alice", "a@x.com", none⟩, ⟨2, "bob", "b@x.com", none⟩], 3⟩ 2
      ⟨some "alice", some "a@x.com", some "p", none⟩
      ⟨"alice", "a@x.com", "p", none⟩ rfl (by decide)⟩

/-! ### C6 -/

/-- C6, counterexample.  The claim says a payload whose username is the
empty string is rejected with a validation failure.  It is false: the
pydantic model at `src/main.py:28` annotates `username` with the bare `str`
type, which the empty string satisfies, so both create and update accept an
empty username and touch the store. -/
theorem C6_counterexample :
    (runOp initStore (.create ⟨some "", some "a@x.com", some "p", none⟩)).1
      = .record ⟨1, "", "a@x.com", none⟩ ∧
    (runOp (runOps [.create ⟨some "bob", some "b@x.com", some "p", none⟩])
        (.update 1 ⟨some "", some "a@x.com", some "p", none⟩)).1
      = .record ⟨1, "", "a@x.com", none⟩ := by
  decide

/-- C6, amended.  Every creation or update payload whose username field is
absent is rejected with a validation failure naming the username field,
before any store interaction (the store is returned unchanged); an
empty-string username, by contrast, passes validation. -/
theorem C6_missing_username_rejected (s : Store) (user_id : Nat)
    (p : RawPayload) (h : p.username = none) :
    Field.username ∈ validationErrors p ∧
    runOp s (.create p) = (.failure (.validation (validationErrors p)), s) ∧
    runOp s (.update user_id p) =
      (.failure (.validation (validationErrors p)), s) := by
  obtain ⟨hv, hmem⟩ := validate_missing_username h
  exact ⟨hmem, by simp [runOp, hv], by simp [runOp, hv]⟩

/-- C6, witness: a payload with no username field is rejected by both create
and update on the empty store. -/
theorem C6_witness :
    (⟨none, some "a@x.com", some "p", none⟩ : RawPayload).username = none ∧
    (Field.username ∈ validationErrors ⟨none, some "a@x.com", some "p", none⟩ ∧
     runOp initStore (.create ⟨none, some "a@x.com", some "p", none⟩) =
       (.failure (.validation
          (validationErrors ⟨none, some "a@x.com", some "p", none⟩)), initStore) ∧
     runOp initStore (.update 1 ⟨none, some "a@x.com", some "p", none⟩) =
       (.failure (.validation
          (validationErrors ⟨none, some "a@x.com", some "p", none⟩)), initStore)) :=
  ⟨rfl, C6_missing_username_rejected initStore 1 _ rfl⟩

/-! ### C7 -/

/-- C7.  A successful update of the record with a given id keeps that id on
the resulting record, leaves the record at the same position in the stored
sequence, and leaves every other record (and the id counter) unchanged:
`src/main.py:141-150` overwrites `fake_users_db[idx]` in place. -/
theorem C7_update_preserves_id_and_position (s : Store) (user_id : Nat)
    (p : RawPayload) (r : User) (s2 : Store)
    (h : runOp s (.update user_id p) = (.record r, s2)) :
    r.id = user_id ∧ s2.user_id_counter = s.user_id_counter ∧
      ∃ l1 e l2, s.fake_users_db = l1 ++ e :: l2 ∧ e.id = user_id ∧
        s2.fake_users_db = l1 ++ r :: l2 := by
  obtain ⟨user, db2, hv, hc, hs2⟩ := runOp_update_ok h
  obtain ⟨hr, l1, e, l2, hdb, hid, hl1, hdb2⟩ := update_db_some hc
  subst hs2
  exact ⟨by rw [hr], rfl, l1, e, l2, hdb, hid, hdb2⟩

/-- C7, witness: updating record 2 in a two-record store rewrites exactly
that position. -/
theorem C7_witness :
    runOp ⟨[⟨1, "alice", "a@x.com", none⟩, ⟨2, "bob", "b@x.com", none⟩], 3⟩
        (.update 2 ⟨some "bobby", some "c@x.com", some "p", none⟩) =
      (.record ⟨2, "bobby", "c@x.com", none⟩,
        ⟨[⟨1, "alice", "a@x.com", none⟩, ⟨2, "bobby", "c@x.com", none⟩], 3⟩) ∧
    (User.id ⟨2, "bobby", "c@x.com", none⟩ = 2 ∧ (3 : Nat) = 3 ∧
      ∃ l1 e l2,
        ([⟨1, "alice", "a@x.com", none⟩,
          ⟨2, "bob", "b@x.com", none⟩] : List User) = l1 ++ e :: l2 ∧
        e.id = 2 ∧
        ([⟨1, "alice", "a@x.com", none⟩,
          ⟨2, "bobby", "c@x.com", none⟩] : List User) =
          l1 ++ ⟨2, "bobby", "c@x.com", none⟩ :: l2) :=
  ⟨rfl, C7_update_preserves_id_and_position
    ⟨[⟨1, "alice", "a@x.com", none⟩, ⟨2, "bob", "b@x.com", none⟩], 3⟩ 2
    ⟨some "bobby", some "c@x.com", some "p", none⟩
    ⟨2, "bobby", "c@x.com", none⟩
    ⟨[⟨1, "alice", "a@x.com", none⟩, ⟨2, "bobby", "c@x.com", none⟩], 3⟩ rfl⟩

/-! ### C8 -/

theorem runOp_get_found {s : Store} {user_id : Nat} {u : User}
    (h : find_by_id s.fake_users_db user_id = some u) :
    runOp s (.get user_id) = (.record u, s) := by
  simp [runOp, h]

/-- C8.  Creating a valid, non-conflicting payload and then getting the
assigned id returns a record whose username, email and full_name are exactly
those of the payload.  The record carries only the four fields id, username,
email, full_name — the `User` response type has no password field, matching
the dict built at `src/main.py:114-119`, so no response of any operation can
carry a password. -/
theorem C8_create_get_roundtrip (s : Store) (p : RawPayload) (user : UserCreate)
    (nu : User) (s2 : Store)
    (hv : validate_UserCreate p = .ok user)
    (h : runOp s (.create p) = (.record nu, s2))
    (hfresh : ∀ u ∈ s.fake_users_db, u.id ≠ s.user_id_counter) :
    nu = ⟨s.user_id_counter, user.username, user.email, user.full_name⟩ ∧
      p.username = some nu.username ∧ p.email = some nu.email ∧
      p.full_name = nu.full_name ∧
      runOp s2 (.get nu.id) = (.record nu, s2) := by
  obtain ⟨user2, hv2, hc, hnu, hs2⟩ := runOp_create_ok h
  rw [hv] at hv2
  obtain rfl : user = user2 := Except.ok.inj hv2
  subst hnu
  subst hs2
  have hf := validate_ok_fields hv
  exact ⟨rfl, hf.1, hf.2.1, hf.2.2.2, runOp_get_found (find_by_id_append_first hfresh rfl)⟩

/-- C8, witness: creating Alice in the empty store and getting id 1 returns
her record, with no password anywhere in it. -/
theorem C8_witness :
    validate_UserCreate ⟨some "alice", some "a@x.com", some "p", some "Alice A"⟩ =
        .ok ⟨"alice", "a@x.com", "p", some "Alice A"⟩ ∧
    runOp initStore (.create ⟨some "alice", some "a@x.com", some "p", some "Alice A"⟩) =
      (.record ⟨1, "alice", "a@x.com", some "Alice A"⟩,
        ⟨[⟨1, "alice", "a@x.com", some "Alice A"⟩], 2⟩) ∧
    (∀ u ∈ initStore.fake_users_db, u.id ≠ initStore.user_id_counter) ∧
    runOp ⟨[⟨1, "alice", "a@x.com", some "Alice A"⟩], 2⟩
        (.get (User.id ⟨1, "alice", "a@x.com", some "Alice A"⟩)) =
      (.record ⟨1, "alice", "a@x.com", some "Alice A"⟩,
        ⟨[⟨1, "alice", "a@x.com", some "Alice A"⟩], 2⟩) :=
  ⟨rfl, rfl, by decide,
    (C8_create_get_roundtrip initStore
      ⟨some "alice", some "a@x.com", some "p", some "Alice A"⟩
      ⟨"alice", "a@x.com", "p", some "Alice A"⟩
      ⟨1, "alice", "a@x.com", some "Alice A"⟩
      ⟨[⟨1, "alice", "a@x.com", some "Alice A"⟩], 2⟩
      rfl rfl (by decide)).2.2.2.2⟩

/-! ### C9 -/

/-- C9.  In a store whose ids are pairwise distinct (which holds at every
reachable state, see `idInv_runOps`) and which holds a record with the
requested id, the delete succeeds with the confirmation message, the
remaining records are the original sequence with exactly that record
removed (order preserved), a subsequent get of that id is not-found, and no
listed record carries that id any more. -/
theorem C9_delete_removes_record (s : Store) (user_id : Nat) (r : User)
    (hnodup : (s.fake_users_db.map User.id).Nodup)
    (hfind : find_by_id s.fake_users_db user_id = some r) :
    ∃ l1 l2, s.fake_users_db = l1 ++ r :: l2 ∧
      runOp s (.delete user_id) =
        (.message deleteSuccessMessage, ⟨l1 ++ l2, s.user_id_counter⟩) ∧
      (∀ x ∈ l1 ++ l2, x.id ≠ user_id) ∧
      runOp ⟨l1 ++ l2, s.user_id_counter⟩ (.get user_id) =
        (.failure notFoundError, ⟨l1 ++ l2, s.user_id_counter⟩) ∧
      runOp ⟨l1 ++ l2, s.user_id_counter⟩ .list =
        (.records (l1 ++ l2), ⟨l1 ++ l2, s.user_id_counter⟩) := by
  obtain ⟨hrmem, hrid⟩ := find_by_id_some hfind
  cases hc : delete_db s.fake_users_db user_id with
  | none => exact absurd hrid (delete_db_eq_none.mp hc r hrmem)
  | some db2 =>
    obtain ⟨l1, e, l2, hdb, hid, hl1, hdb2⟩ := delete_db_some hc
    have her : e = r := by
      have h2 := @find_by_id_append_first l1 e l2 user_id hl1 hid
      rw [← hdb, hfind] at h2
      exact (Option.some.inj h2).symm
    subst her
    have hclean : ∀ x ∈ l1 ++ l2, x.id ≠ user_id := by
      have hmid : e.id ∉ (l1 ++ l2).map User.id := by
        have := hnodup
        rw [hdb, List.map_append, List.map_cons, List.nodup_middle,
          ← List.map_append] at this
        exact (List.nodup_cons.mp this).1
      intro x hx hxid
      refine hmid ?_
      rw [hid, ← hxid]
      exact List.mem_map_of_mem User.id hx
    refine ⟨l1, l2, hdb, ?_, hclean, ?_, rfl⟩
    · rw [← hdb2]
      simp [runOp, delete_user, hc]
    · have hnone : find_by_id (l1 ++ l2) user_id = none :=
        find_by_id_eq_none.mpr hclean
      simp [runOp, hnone]

/-- C9, witness: deleting record 1 from a two-record store keeps only record
2, and getting id 1 afterwards is not-found. -/
theorem C9_witness :
    (([⟨1, "alice", "a@x.com", none⟩,
       ⟨2, "bob", "b@x.com", none⟩] : List User).map User.id).Nodup ∧
    find_by_id [⟨1, "alice", "a@x.com", none⟩, ⟨2, "bob", "b@x.com", none⟩] 1 =
      some ⟨1, "alice", "a@x.com", none⟩ ∧
    ∃ l1 l2,
      ([⟨1, "alice", "a@x.com", none⟩,
        ⟨2, "bob", "b@x.com", none⟩] : List User) =
          l1 ++ ⟨1, "alice", "a@x.com", none⟩ :: l2 ∧
      runOp ⟨[⟨1, "alice", "a@x.com", none⟩, ⟨2, "bob", "b@x.com", none⟩], 3⟩
          (.delete 1) =
        (.message deleteSuccessMessage, ⟨l1 ++ l2, 3⟩) ∧
      (∀ x ∈ l1 ++ l2, x.id ≠ 1) ∧
      runOp ⟨l1 ++ l2, 3⟩ (.get 1) =
        (.failure notFoundError, ⟨l1 ++ l2, 3⟩) ∧
      runOp ⟨l1 ++ l2, 3⟩ .list = (.records (l1 ++ l2), ⟨l1 ++ l2, 3⟩) :=
  ⟨by decide, rfl,
    C9_delete_removes_record
      ⟨[⟨1, "alice", "a@x.com", none⟩, ⟨2, "bob", "b@x.com", none⟩], 3⟩ 1
      ⟨1, "alice", "a@x.com", none⟩ (by decide) rfl⟩

/-! ### C10 -/

/-- C10.  An update request whose payload has no password field is rejected
with a validation failure naming the password field, before the store is
touched: `update_user` (`src/main.py:127`) takes its body as the same
pydantic `UserCreate` model as creation, whose `password: str` field is
required, although the handler never stores or returns the password. -/
theorem C10_update_requires_password (s : Store) (user_id : Nat)
    (p : RawPayload) (h : p.password = none) :
    Field.password ∈ validationErrors p ∧
    runOp s (.update user_id p) =
      (.failure (.validation (validationErrors p)), s) := by
  obtain ⟨hv, hmem⟩ := validate_missing_password h
  exact ⟨hmem, by simp [runOp, hv]⟩

/-- C10, witness: an update carrying username, email and full_name but no
password is rejected even on a store that holds the addressed record. -/
theorem C10_witness :
    (⟨some "bob", some "b@x.com", none, some "Bob"⟩ : RawPayload).password = none ∧
    (Field.password ∈ validationErrors ⟨some "bob", some "b@x.com", none, some "Bob"⟩ ∧
     runOp ⟨[⟨1, "alice", "a@x.com", none⟩], 2⟩
         (.update 1 ⟨some "bob", some "b@x.com", none, some "Bob"⟩) =
       (.failure (.validation
          (validationErrors ⟨some "bob", some "b@x.com", none, some "Bob"⟩)),
        ⟨[⟨1, "alice", "a@x.com", none⟩], 2⟩)) :=
  ⟨rfl, C10_update_requires_password ⟨[⟨1, "alice", "a@x.com", none⟩], 2⟩ 1 _ rfl⟩

end FastApiUsers
